import Mathlib

/-!
Verification of the playlist classification and duration-constrained
assembly core of the Spotify-Playlist repository
(source file: src/utils/spotify.ts).

The embedding models TypeScript numbers as rational numbers: the source
only adds, subtracts and compares them, and all comparisons in the
classifier are against fixed decimal constants.  Arrays become lists,
and the stable ECMAScript sort with the numeric comparators
`a.energy - b.energy` / `b.energy - a.energy` becomes a stable insertion
sort by the corresponding total preorder on energy.
-/

/-- Embeds the TypeScript union type `SessionType = 'calm' | 'building'`. -/
inductive SessionType : Type
  | calm : SessionType
  | building : SessionType
deriving DecidableEq

/-- Embeds the TypeScript interface `SongAnalysis` from src/utils/spotify.ts. -/
structure SongAnalysis : Type where
  id : String
  name : String
  artists : List String
  duration_ms : ℚ
  tempo : ℚ
  energy : ℚ
  acousticness : ℚ
  instrumentalness : ℚ
  valence : ℚ
  uri : String
deriving DecidableEq

/-- Embeds `classifySong` from src/utils/spotify.ts: a song is calm when
`tempo < 100 || energy < 0.5 || acousticness > 0.6 || instrumentalness > 0.5`,
and building otherwise. -/
def classifySong (analysis : SongAnalysis) : SessionType :=
  if analysis.tempo < 100 ∨ analysis.energy < 1/2 ∨
      analysis.acousticness > 3/5 ∨ analysis.instrumentalness > 1/2 then
    SessionType.calm
  else
    SessionType.building

/-- The comparator passed to `.sort` in `buildPlaylist`, as a preorder:
energy ascending for calm sessions, descending for building sessions. -/
def energyLe (sessionType : SessionType) (a b : SongAnalysis) : Prop :=
  match sessionType with
  | SessionType.calm => a.energy ≤ b.energy
  | SessionType.building => b.energy ≤ a.energy

instance (sessionType : SessionType) : DecidableRel (energyLe sessionType) := by
  intro a b
  cases sessionType <;> simp only [energyLe] <;> infer_instance

instance (sessionType : SessionType) : IsTotal SongAnalysis (energyLe sessionType) := by
  constructor
  intro a b
  cases sessionType <;> simp only [energyLe] <;> exact le_total _ _

instance (sessionType : SessionType) : IsTrans SongAnalysis (energyLe sessionType) := by
  constructor
  intro a b c hab hbc
  cases sessionType
  · exact le_trans hab hbc
  · exact le_trans hbc hab

/-- The line `const sortedSongs = [...filteredSongs].sort(...)`: a stable sort
of the filtered list by the energy comparator. -/
def sortSongs (sessionType : SessionType) (l : List SongAnalysis) : List SongAnalysis :=
  List.insertionSort (energyLe sessionType) l

/-- The filter step `songs.filter(song => classifySong(song) === sessionType)`. -/
def filterSongs (sessionType : SessionType) (songs : List SongAnalysis) : List SongAnalysis :=
  songs.filter (fun song => decide (classifySong song = sessionType))

/-- The `for (const song of sortedSongs)` loop of `buildPlaylist`: greedy
packing with a single fallback search over the whole sorted list (the
`sortedSongs.find(...)` call) at the first overflow, then an unconditional
break. -/
def packLoop (targetDurationMs : ℚ) (sortedSongs : List SongAnalysis) :
    List SongAnalysis → List SongAnalysis → ℚ → List SongAnalysis
  | [], playlist, _ => playlist
  | song :: rest, playlist, currentDuration =>
    if currentDuration + song.duration_ms ≤ targetDurationMs then
      packLoop targetDurationMs sortedSongs rest (playlist ++ [song])
        (currentDuration + song.duration_ms)
    else
      match sortedSongs.find? (fun s =>
          decide (s.duration_ms ≤ targetDurationMs - currentDuration) &&
          !(decide (s ∈ playlist))) with
      | some perfectFit => playlist ++ [perfectFit]
      | none => playlist

/-- The default `targetDurationMs = 38 * 60 * 1000` of `buildPlaylist`. -/
def defaultTargetDurationMs : ℚ := 38 * 60 * 1000

/-- Embeds `buildPlaylist` from src/utils/spotify.ts: filter by session type,
stable-sort by energy, then greedily pack with the one-shot fallback. -/
def buildPlaylist (songs : List SongAnalysis) (sessionType : SessionType)
    (targetDurationMs : ℚ) : List SongAnalysis :=
  packLoop targetDurationMs (sortSongs sessionType (filterSongs sessionType songs))
    (sortSongs sessionType (filterSongs sessionType songs)) [] 0

/-- Total duration in milliseconds of a list of songs. -/
def sumDur (l : List SongAnalysis) : ℚ :=
  (l.map SongAnalysis.duration_ms).sum

/-- The greedy phase of the assembly, written the way the spec describes it:
take candidates in sorted order while each one keeps the running total within
the target, and stop at the first overflow. -/
def greedyTake (targetDurationMs : ℚ) : ℚ → List SongAnalysis → List SongAnalysis
  | _, [] => []
  | currentDuration, song :: rest =>
    if currentDuration + song.duration_ms ≤ targetDurationMs then
      song :: greedyTake targetDurationMs (currentDuration + song.duration_ms) rest
    else
      []

/-- The fallback search of the spec: the first track of the whole sorted list
whose duration fits the remaining budget and which is not yet in the result. -/
def fallbackFind (targetDurationMs currentDuration : ℚ)
    (sortedSongs playlist : List SongAnalysis) : Option SongAnalysis :=
  sortedSongs.find? (fun s =>
    decide (s.duration_ms ≤ targetDurationMs - currentDuration) &&
    !(decide (s ∈ playlist)))

/-- Modelled from the spec (section 4.2): the assembler as the spec describes
it, a greedy prefix of the sorted filtered list, followed, when the greedy
walk stopped early, by at most one fallback-patched track found by a single
search over the entire sorted list. -/
def buildPlaylistSpec (songs : List SongAnalysis) (sessionType : SessionType)
    (targetDurationMs : ℚ) : List SongAnalysis :=
  let sorted := sortSongs sessionType (filterSongs sessionType songs)
  let g := greedyTake targetDurationMs 0 sorted
  if g.length = sorted.length then g
  else g ++ (fallbackFind targetDurationMs (sumDur g) sorted g).toList

lemma sumDur_nil : sumDur [] = 0 := rfl

lemma sumDur_cons (s : SongAnalysis) (l : List SongAnalysis) :
    sumDur (s :: l) = s.duration_ms + sumDur l := by
  simp [sumDur]

lemma sumDur_append (l₁ l₂ : List SongAnalysis) :
    sumDur (l₁ ++ l₂) = sumDur l₁ + sumDur l₂ := by
  simp [sumDur]

lemma packLoop_eq (targetDurationMs : ℚ) (sorted : List SongAnalysis) :
    ∀ (rest playlist : List SongAnalysis) (cur : ℚ),
      packLoop targetDurationMs sorted rest playlist cur =
        (if (greedyTake targetDurationMs cur rest).length = rest.length then
          playlist ++ greedyTake targetDurationMs cur rest
        else
          playlist ++ greedyTake targetDurationMs cur rest ++
            (fallbackFind targetDurationMs (cur + sumDur (greedyTake targetDurationMs cur rest))
              sorted (playlist ++ greedyTake targetDurationMs cur rest)).toList) := by
  intro rest
  induction rest with
  | nil =>
    intro playlist cur
    simp [packLoop, greedyTake]
  | cons song rest ih =>
    intro playlist cur
    by_cases h : cur + song.duration_ms ≤ targetDurationMs
    · rw [packLoop, if_pos h, ih, greedyTake, if_pos h]
      have hlen : (song :: greedyTake targetDurationMs (cur + song.duration_ms) rest).length =
          (song :: rest).length ↔
          (greedyTake targetDurationMs (cur + song.duration_ms) rest).length = rest.length := by
        simp
      have hsum : cur + sumDur (song :: greedyTake targetDurationMs (cur + song.duration_ms) rest) =
          cur + song.duration_ms + sumDur (greedyTake targetDurationMs (cur + song.duration_ms) rest) := by
        rw [sumDur_cons]; ring
      by_cases hl : (greedyTake targetDurationMs (cur + song.duration_ms) rest).length = rest.length
      · rw [if_pos hl, if_pos (hlen.mpr hl)]
        simp
      · rw [if_neg hl, if_neg (fun hc => hl (hlen.mp hc)), hsum]
        simp
    · rw [packLoop, if_neg h, greedyTake, if_neg h]
      have hlen : ¬ (([] : List SongAnalysis).length = (song :: rest).length) := by simp
      rw [if_neg hlen, sumDur_nil, add_zero]
      simp only [List.append_nil, fallbackFind]
      cases hf : List.find? (fun s =>
          decide (s.duration_ms ≤ targetDurationMs - cur) && !(decide (s ∈ playlist))) sorted with
      | none => simp
      | some pf => simp

lemma buildPlaylist_eq_spec (songs : List SongAnalysis) (sessionType : SessionType)
    (targetDurationMs : ℚ) :
    buildPlaylist songs sessionType targetDurationMs =
      buildPlaylistSpec songs sessionType targetDurationMs := by
  rw [buildPlaylist, buildPlaylistSpec, packLoop_eq]
  simp only [List.nil_append, zero_add]

lemma greedyTake_init (targetDurationMs : ℚ) :
    ∀ (l : List SongAnalysis) (cur : ℚ),
      ∃ q, greedyTake targetDurationMs cur l ++ q = l := by
  intro l
  induction l with
  | nil => exact fun cur => ⟨[], rfl⟩
  | cons s rest ih =>
    intro cur
    rw [greedyTake]
    by_cases h : cur + s.duration_ms ≤ targetDurationMs
    · rw [if_pos h]
      obtain ⟨q, hq⟩ := ih (cur + s.duration_ms)
      exact ⟨q, by rw [List.cons_append, hq]⟩
    · rw [if_neg h]
      exact ⟨s :: rest, rfl⟩

lemma mem_greedyTake {targetDurationMs cur : ℚ} {l : List SongAnalysis}
    {x : SongAnalysis} (hx : x ∈ greedyTake targetDurationMs cur l) : x ∈ l := by
  obtain ⟨q, hq⟩ := greedyTake_init targetDurationMs l cur
  rw [← hq]
  exact List.mem_append_left _ hx

lemma greedyTake_sum_le (targetDurationMs : ℚ) :
    ∀ (l : List SongAnalysis) (cur : ℚ), cur ≤ targetDurationMs →
      cur + sumDur (greedyTake targetDurationMs cur l) ≤ targetDurationMs := by
  intro l
  induction l with
  | nil => intro cur hcur; simpa [greedyTake, sumDur_nil] using hcur
  | cons s rest ih =>
    intro cur hcur
    rw [greedyTake]
    by_cases h : cur + s.duration_ms ≤ targetDurationMs
    · rw [if_pos h, sumDur_cons, ← add_assoc]
      exact ih (cur + s.duration_ms) h
    · rw [if_neg h, sumDur_nil, add_zero]
      exact hcur

lemma fallbackFind_eq_some {targetDurationMs cur : ℚ}
    {sorted playlist : List SongAnalysis} {pf : SongAnalysis}
    (h : fallbackFind targetDurationMs cur sorted playlist = some pf) :
    pf ∈ sorted ∧ pf.duration_ms ≤ targetDurationMs - cur ∧ pf ∉ playlist := by
  refine ⟨List.mem_of_find?_eq_some h, ?_, ?_⟩
  · have hp := List.find?_some h
    simp only [Bool.and_eq_true, decide_eq_true_eq, Bool.not_eq_true'] at hp
    exact hp.1
  · have hp := List.find?_some h
    simp only [Bool.and_eq_true, decide_eq_true_eq, Bool.not_eq_true',
      decide_eq_false_iff_not] at hp
    exact hp.2

lemma fallbackFind_eq_none {targetDurationMs cur : ℚ}
    {sorted playlist : List SongAnalysis}
    (h : fallbackFind targetDurationMs cur sorted playlist = none) :
    ∀ x ∈ sorted, x.duration_ms ≤ targetDurationMs - cur → x ∈ playlist := by
  intro x hx hdur
  have := List.find?_eq_none.mp h x hx
  simp only [Bool.and_eq_true, decide_eq_true_eq, Bool.not_eq_true',
    decide_eq_false_iff_not, not_and, not_not] at this
  exact this hdur

lemma mem_sortSongs {sessionType : SessionType} {l : List SongAnalysis}
    {x : SongAnalysis} : x ∈ sortSongs sessionType l ↔ x ∈ l := by
  unfold sortSongs
  exact List.mem_insertionSort _

lemma mem_buildPlaylist {songs : List SongAnalysis} {sessionType : SessionType}
    {targetDurationMs : ℚ} {x : SongAnalysis}
    (hx : x ∈ buildPlaylist songs sessionType targetDurationMs) :
    x ∈ filterSongs sessionType songs := by
  rw [buildPlaylist_eq_spec] at hx
  unfold buildPlaylistSpec at hx
  simp only at hx
  by_cases hlen : (greedyTake targetDurationMs 0
      (sortSongs sessionType (filterSongs sessionType songs))).length =
      (sortSongs sessionType (filterSongs sessionType songs)).length
  · rw [if_pos hlen] at hx
    exact mem_sortSongs.mp (mem_greedyTake hx)
  · rw [if_neg hlen] at hx
    rcases List.mem_append.mp hx with hg | hf
    · exact mem_sortSongs.mp (mem_greedyTake hg)
    · cases hfb : fallbackFind targetDurationMs
          (sumDur (greedyTake targetDurationMs 0
            (sortSongs sessionType (filterSongs sessionType songs))))
          (sortSongs sessionType (filterSongs sessionType songs))
          (greedyTake targetDurationMs 0
            (sortSongs sessionType (filterSongs sessionType songs))) with
      | none => rw [hfb] at hf; simp at hf
      | some pf =>
        rw [hfb] at hf
        simp only [Option.toList_some, List.mem_singleton] at hf
        subst hf
        exact mem_sortSongs.mp (fallbackFind_eq_some hfb).1

/-- C2: classifySong returns calm exactly when tempo < 100 or energy < 0.5 or
acousticness > 0.6 or instrumentalness > 0.5, and returns building exactly
when tempo >= 100, energy >= 0.5, acousticness <= 0.6 and
instrumentalness <= 0.5. -/
theorem classifySong_iff (t : SongAnalysis) :
    (classifySong t = SessionType.calm ↔
      (t.tempo < 100 ∨ t.energy < 1/2 ∨ t.acousticness > 3/5 ∨ t.instrumentalness > 1/2)) ∧
    (classifySong t = SessionType.building ↔
      (100 ≤ t.tempo ∧ 1/2 ≤ t.energy ∧ t.acousticness ≤ 3/5 ∧ t.instrumentalness ≤ 1/2)) := by
  by_cases h : t.tempo < 100 ∨ t.energy < 1/2 ∨ t.acousticness > 3/5 ∨ t.instrumentalness > 1/2
  · rw [classifySong, if_pos h]
    constructor
    · exact ⟨fun _ => h, fun _ => rfl⟩
    · constructor
      · intro hc
        exact absurd hc (by simp)
      · rintro ⟨h1, h2, h3, h4⟩
        rcases h with h' | h' | h' | h'
        · exact absurd h' (not_lt.mpr h1)
        · exact absurd h' (not_lt.mpr h2)
        · exact absurd h' (not_lt.mpr h3)
        · exact absurd h' (not_lt.mpr h4)
  · rw [classifySong, if_neg h]
    have h' := h
    push_neg at h'
    constructor
    · constructor
      · intro hc
        exact absurd hc (by simp)
      · intro hd
        exact absurd hd h
    · exact ⟨fun _ => h', fun _ => rfl⟩

/-- C3: buildPlaylist is exactly the spec's stop-and-patch algorithm: it takes
the greedy prefix of the sorted filtered list, and the first time a candidate
would push the running total past the target it stops and performs exactly one
search over the entire sorted list for the first track whose duration fits the
remaining budget and which is not already in the result, appending it when
found and terminating either way, so the result has at most one track beyond
the greedy prefix. -/
theorem buildPlaylist_stop_and_patch (songs : List SongAnalysis)
    (sessionType : SessionType) (targetDurationMs : ℚ) :
    buildPlaylist songs sessionType targetDurationMs =
      buildPlaylistSpec songs sessionType targetDurationMs :=
  buildPlaylist_eq_spec songs sessionType targetDurationMs

/-- C1: for every input list, target mood and non-negative target duration,
the total duration of the playlist returned by buildPlaylist is at most
targetDurationMs, both for the greedy prefix and after the fallback patch. -/
theorem buildPlaylist_duration_le (songs : List SongAnalysis)
    (sessionType : SessionType) (targetDurationMs : ℚ)
    (ht : 0 ≤ targetDurationMs) :
    sumDur (buildPlaylist songs sessionType targetDurationMs) ≤ targetDurationMs := by
  rw [buildPlaylist_eq_spec]
  unfold buildPlaylistSpec
  simp only
  have hsum : sumDur (greedyTake targetDurationMs 0
      (sortSongs sessionType (filterSongs sessionType songs))) ≤ targetDurationMs := by
    have := greedyTake_sum_le targetDurationMs
      (sortSongs sessionType (filterSongs sessionType songs)) 0 ht
    rwa [zero_add] at this
  by_cases hlen : (greedyTake targetDurationMs 0
      (sortSongs sessionType (filterSongs sessionType songs))).length =
      (sortSongs sessionType (filterSongs sessionType songs)).length
  · rw [if_pos hlen]
    exact hsum
  · rw [if_neg hlen]
    cases hfb : fallbackFind targetDurationMs
        (sumDur (greedyTake targetDurationMs 0
          (sortSongs sessionType (filterSongs sessionType songs))))
        (sortSongs sessionType (filterSongs sessionType songs))
        (greedyTake targetDurationMs 0
          (sortSongs sessionType (filterSongs sessionType songs))) with
    | none => simpa [sumDur_append, sumDur_nil] using hsum
    | some pf =>
      have hpf := (fallbackFind_eq_some hfb).2.1
      have heq : sumDur (greedyTake targetDurationMs 0
          (sortSongs sessionType (filterSongs sessionType songs)) ++ [pf]) =
          sumDur (greedyTake targetDurationMs 0
            (sortSongs sessionType (filterSongs sessionType songs))) + pf.duration_ms := by
        rw [sumDur_append, sumDur_cons, sumDur_nil, add_zero]
      simp only [Option.toList_some]
      rw [heq]
      linarith

/-- Witness for C1 at a concrete input. -/
theorem buildPlaylist_duration_le_witness :
    (0:ℚ) ≤ 2280000 ∧
    sumDur (buildPlaylist [] SessionType.calm 2280000) ≤ 2280000 :=
  ⟨by norm_num, buildPlaylist_duration_le [] SessionType.calm 2280000 (by norm_num)⟩

/-- C5: every track of the playlist returned by buildPlaylist classifies as the
requested session type; tracks of the other mood are never selected, not even
by the fallback search. -/
theorem buildPlaylist_mood (songs : List SongAnalysis) (sessionType : SessionType)
    (targetDurationMs : ℚ) (x : SongAnalysis)
    (hx : x ∈ buildPlaylist songs sessionType targetDurationMs) :
    classifySong x = sessionType := by
  have h := mem_buildPlaylist hx
  rw [filterSongs, List.mem_filter] at h
  exact of_decide_eq_true h.2

/-- A concrete calm track used by the witnesses. -/
def calmSongA : SongAnalysis :=
  ⟨"a", "Song A", ["Artist A"], 100, 80, 3/10, 1/10, 0, 1/2, "spotify:track:a"⟩

/-- Witness for C5 at a concrete input. -/
theorem buildPlaylist_mood_witness :
    calmSongA ∈ buildPlaylist [calmSongA] SessionType.calm 2280000 ∧
    classifySong calmSongA = SessionType.calm := by
  have hmem : calmSongA ∈ buildPlaylist [calmSongA] SessionType.calm 2280000 := by
    norm_num [buildPlaylist, filterSongs, sortSongs, packLoop, classifySong, calmSongA,
      List.filter, List.insertionSort, List.orderedInsert]
  exact ⟨hmem, buildPlaylist_mood [calmSongA] SessionType.calm 2280000 calmSongA hmem⟩

/-- C6: the playlist returned by buildPlaylist is a prefix of the filtered
list stably sorted by energy (ascending for calm, descending for building),
followed by at most one fallback-patched track taken from that sorted list and
appended last; no final re-sort is performed. -/
theorem buildPlaylist_order (songs : List SongAnalysis) (sessionType : SessionType)
    (targetDurationMs : ℚ) :
    List.Sorted (energyLe sessionType) (sortSongs sessionType (filterSongs sessionType songs)) ∧
    (sortSongs sessionType (filterSongs sessionType songs)).Perm
      (filterSongs sessionType songs) ∧
    ∃ p fb, (∃ q, p ++ q = sortSongs sessionType (filterSongs sessionType songs)) ∧
      buildPlaylist songs sessionType targetDurationMs = p ++ fb ∧
      (fb = [] ∨ ∃ pf, pf ∈ sortSongs sessionType (filterSongs sessionType songs) ∧
        fb = [pf]) := by
  refine ⟨List.sorted_insertionSort _ _, List.perm_insertionSort _ _, ?_⟩
  rw [buildPlaylist_eq_spec]
  unfold buildPlaylistSpec
  simp only
  by_cases hlen : (greedyTake targetDurationMs 0
      (sortSongs sessionType (filterSongs sessionType songs))).length =
      (sortSongs sessionType (filterSongs sessionType songs)).length
  · rw [if_pos hlen]
    exact ⟨greedyTake targetDurationMs 0
        (sortSongs sessionType (filterSongs sessionType songs)), [],
      greedyTake_init targetDurationMs _ 0, (List.append_nil _).symm, Or.inl rfl⟩
  · rw [if_neg hlen]
    cases hfb : fallbackFind targetDurationMs
        (sumDur (greedyTake targetDurationMs 0
          (sortSongs sessionType (filterSongs sessionType songs))))
        (sortSongs sessionType (filterSongs sessionType songs))
        (greedyTake targetDurationMs 0
          (sortSongs sessionType (filterSongs sessionType songs))) with
    | none =>
      exact ⟨greedyTake targetDurationMs 0
          (sortSongs sessionType (filterSongs sessionType songs)), [],
        greedyTake_init targetDurationMs _ 0, rfl, Or.inl rfl⟩
    | some pf =>
      exact ⟨greedyTake targetDurationMs 0
          (sortSongs sessionType (filterSongs sessionType songs)), [pf],
        greedyTake_init targetDurationMs _ 0, rfl,
        Or.inr ⟨pf, (fallbackFind_eq_some hfb).1, rfl⟩⟩

/-- C7: when every track that classifies as the target mood is individually
longer than the target duration (vacuously so for empty input), buildPlaylist
returns the empty playlist: the first candidate overflows and the fallback
search finds nothing. -/
theorem buildPlaylist_all_overflow (songs : List SongAnalysis)
    (sessionType : SessionType) (targetDurationMs : ℚ)
    (h : ∀ x ∈ songs, classifySong x = sessionType →
      targetDurationMs < x.duration_ms) :
    buildPlaylist songs sessionType targetDurationMs = [] := by
  have hall : ∀ x ∈ sortSongs sessionType (filterSongs sessionType songs),
      targetDurationMs < x.duration_ms := by
    intro x hx
    have hxf := mem_sortSongs.mp hx
    rw [filterSongs, List.mem_filter] at hxf
    exact h x hxf.1 (of_decide_eq_true hxf.2)
  rw [buildPlaylist_eq_spec]
  unfold buildPlaylistSpec
  simp only
  cases hs : sortSongs sessionType (filterSongs sessionType songs) with
  | nil => simp [hs, greedyTake]
  | cons s rest =>
    rw [hs] at hall
    have hfit : ¬ (0 + s.duration_ms ≤ targetDurationMs) := by
      have := hall s (List.mem_cons_self s rest)
      intro hc
      rw [zero_add] at hc
      exact absurd hc (not_le.mpr this)
    rw [greedyTake, if_neg hfit]
    have hlen : ¬ (([] : List SongAnalysis).length = (s :: rest).length) := by simp
    rw [if_neg hlen]
    have hnone : fallbackFind targetDurationMs (sumDur []) (s :: rest) [] = none := by
      rw [fallbackFind]
      apply List.find?_eq_none.mpr
      intro x hx
      simp only [Bool.and_eq_true, decide_eq_true_eq, Bool.not_eq_true',
        decide_eq_false_iff_not, not_and]
      intro hdur
      exfalso
      rw [sumDur_nil, sub_zero] at hdur
      exact absurd hdur (not_le.mpr (hall x hx))
    rw [hnone]
    rfl

/-- A concrete calm track longer than the default target duration. -/
def longCalmSong : SongAnalysis :=
  ⟨"long", "Long Song", ["Artist L"], 3000000, 80, 2/5, 0, 0, 0, "spotify:track:long"⟩

/-- Witness for C7 at a concrete input. -/
theorem buildPlaylist_all_overflow_witness :
    (∀ x ∈ [longCalmSong], classifySong x = SessionType.calm →
      (2280000:ℚ) < x.duration_ms) ∧
    buildPlaylist [longCalmSong] SessionType.calm 2280000 = [] := by
  have h : ∀ x ∈ [longCalmSong], classifySong x = SessionType.calm →
      (2280000:ℚ) < x.duration_ms := by
    intro x hx _
    rw [List.mem_singleton] at hx
    subst hx
    norm_num [longCalmSong]
  exact ⟨h, buildPlaylist_all_overflow [longCalmSong] SessionType.calm 2280000 h⟩

/-- C10: when at least one track classifies as the target mood and fits the
non-negative target duration on its own, buildPlaylist returns a non-empty
playlist. -/
theorem buildPlaylist_nonempty (songs : List SongAnalysis)
    (sessionType : SessionType) (targetDurationMs : ℚ)
    (ht : 0 ≤ targetDurationMs)
    (h : ∃ x ∈ songs, classifySong x = sessionType ∧
      x.duration_ms ≤ targetDurationMs) :
    buildPlaylist songs sessionType targetDurationMs ≠ [] := by
  obtain ⟨x, hxs, hxc, hxd⟩ := h
  have hxsorted : x ∈ sortSongs sessionType (filterSongs sessionType songs) := by
    rw [mem_sortSongs, filterSongs, List.mem_filter]
    exact ⟨hxs, decide_eq_true hxc⟩
  rw [buildPlaylist_eq_spec]
  unfold buildPlaylistSpec
  simp only
  by_cases hlen : (greedyTake targetDurationMs 0
      (sortSongs sessionType (filterSongs sessionType songs))).length =
      (sortSongs sessionType (filterSongs sessionType songs)).length
  · rw [if_pos hlen]
    intro hnil
    rw [hnil] at hlen
    have : sortSongs sessionType (filterSongs sessionType songs) = [] :=
      List.length_eq_zero.mp hlen.symm
    rw [this] at hxsorted
    exact absurd hxsorted (List.not_mem_nil x)
  · rw [if_neg hlen]
    intro hnil
    obtain ⟨hgnil, hfnil⟩ := List.append_eq_nil.mp hnil
    have hfb : fallbackFind targetDurationMs
        (sumDur (greedyTake targetDurationMs 0
          (sortSongs sessionType (filterSongs sessionType songs))))
        (sortSongs sessionType (filterSongs sessionType songs))
        (greedyTake targetDurationMs 0
          (sortSongs sessionType (filterSongs sessionType songs))) = none := by
      cases hfb' : fallbackFind targetDurationMs
          (sumDur (greedyTake targetDurationMs 0
            (sortSongs sessionType (filterSongs sessionType songs))))
          (sortSongs sessionType (filterSongs sessionType songs))
          (greedyTake targetDurationMs 0
            (sortSongs sessionType (filterSongs sessionType songs))) with
      | none => rfl
      | some pf => rw [hfb'] at hfnil; exact absurd hfnil (by simp)
    have hin := fallbackFind_eq_none hfb x hxsorted (by
      rw [hgnil, sumDur_nil, sub_zero]
      exact hxd)
    rw [hgnil] at hin
    exact absurd hin (List.not_mem_nil x)

/-- Witness for C10 at a concrete input. -/
theorem buildPlaylist_nonempty_witness :
    (0:ℚ) ≤ 2280000 ∧
    (∃ x ∈ [calmSongA], classifySong x = SessionType.calm ∧
      x.duration_ms ≤ (2280000:ℚ)) ∧
    buildPlaylist [calmSongA] SessionType.calm 2280000 ≠ [] := by
  have hx : ∃ x ∈ [calmSongA], classifySong x = SessionType.calm ∧
      x.duration_ms ≤ (2280000:ℚ) := by
    refine ⟨calmSongA, List.mem_singleton_self _, ?_, by norm_num [calmSongA]⟩
    norm_num [classifySong, calmSongA]
  exact ⟨by norm_num,  hx,
    buildPlaylist_nonempty [calmSongA] SessionType.calm 2280000 (by norm_num) hx⟩

/-- Two distinct calm records that share the same track id. -/
def dupSongA : SongAnalysis :=
  ⟨"dup", "First Take", [], 100, 80, 3/10, 0, 0, 0, "spotify:track:dup1"⟩

/-- Second record with the id of dupSongA but different fields. -/
def dupSongB : SongAnalysis :=
  ⟨"dup", "Second Take", [], 100, 80, 2/5, 0, 0, 0, "spotify:track:dup2"⟩

/-- Counterexample to C4: on an input holding two distinct records with the
same id, buildPlaylist returns both, so the result has two entries with equal
id: the greedy walk performs no membership test at all, and the fallback
membership test compares whole records, not ids. -/
theorem buildPlaylist_dup_id_cex :
    ¬ (((buildPlaylist [dupSongA, dupSongB] SessionType.calm 2280000).map
        SongAnalysis.id).Nodup) := by
  have hres : buildPlaylist [dupSongA, dupSongB] SessionType.calm 2280000 =
      [dupSongA, dupSongB] := by
    norm_num [buildPlaylist, filterSongs, sortSongs, packLoop, classifySong,
      dupSongA, dupSongB, List.filter, List.insertionSort, List.orderedInsert, energyLe]
  rw [hres]
  simp [dupSongA, dupSongB]

/-- C4 amended: when the ids of the input tracks are pairwise distinct (the
spec's stated input invariant), the playlist returned by buildPlaylist
contains no two entries with equal id. -/
theorem buildPlaylist_nodup_id (songs : List SongAnalysis)
    (sessionType : SessionType) (targetDurationMs : ℚ)
    (h : (songs.map SongAnalysis.id).Nodup) :
    ((buildPlaylist songs sessionType targetDurationMs).map SongAnalysis.id).Nodup := by
  have hfilsub : (filterSongs sessionType songs).Sublist songs := List.filter_sublist _
  have hfilnodup : ((filterSongs sessionType songs).map SongAnalysis.id).Nodup :=
    List.Nodup.sublist (hfilsub.map _) h
  have hperm : (sortSongs sessionType (filterSongs sessionType songs)).Perm
      (filterSongs sessionType songs) := List.perm_insertionSort _ _
  have hsortnodup : ((sortSongs sessionType (filterSongs sessionType songs)).map
      SongAnalysis.id).Nodup := ((hperm.map _).nodup_iff).mpr hfilnodup
  obtain ⟨q, hq⟩ := greedyTake_init targetDurationMs
    (sortSongs sessionType (filterSongs sessionType songs)) 0
  have hgsub : (greedyTake targetDurationMs 0
      (sortSongs sessionType (filterSongs sessionType songs))).Sublist
      (sortSongs sessionType (filterSongs sessionType songs)) := by
    have hsub := List.sublist_append_left (greedyTake targetDurationMs 0
      (sortSongs sessionType (filterSongs sessionType songs))) q
    rwa [hq] at hsub
  have hgnodup : ((greedyTake targetDurationMs 0
      (sortSongs sessionType (filterSongs sessionType songs))).map
      SongAnalysis.id).Nodup := List.Nodup.sublist (hgsub.map _) hsortnodup
  rw [buildPlaylist_eq_spec]
  unfold buildPlaylistSpec
  simp only
  by_cases hlen : (greedyTake targetDurationMs 0
      (sortSongs sessionType (filterSongs sessionType songs))).length =
      (sortSongs sessionType (filterSongs sessionType songs)).length
  · rw [if_pos hlen]
    exact hgnodup
  · rw [if_neg hlen]
    cases hfb : fallbackFind targetDurationMs
        (sumDur (greedyTake targetDurationMs 0
          (sortSongs sessionType (filterSongs sessionType songs))))
        (sortSongs sessionType (filterSongs sessionType songs))
        (greedyTake targetDurationMs 0
          (sortSongs sessionType (filterSongs sessionType songs))) with
    | none => simpa using hgnodup
    | some pf =>
      obtain ⟨hpfmem, _, hpfnotin⟩ := fallbackFind_eq_some hfb
      simp only [Option.toList_some, List.map_append, List.map_cons, List.map_nil]
      rw [List.nodup_append]
      refine ⟨hgnodup, List.nodup_singleton _, ?_⟩
      intro a ha hb
      rw [List.mem_singleton] at hb
      subst hb
      obtain ⟨b, hbg, hbid⟩ := List.mem_map.mp ha
      have hbsorted : b ∈ sortSongs sessionType (filterSongs sessionType songs) := by
        rw [← hq]
        exact List.mem_append_left _ hbg
      have : b = pf := List.inj_on_of_nodup_map hsortnodup hbsorted hpfmem hbid
      subst this
      exact hpfnotin hbg

/-- Witness for the amended C4 at a concrete input. -/
theorem buildPlaylist_nodup_id_witness :
    (([calmSongA].map SongAnalysis.id).Nodup) ∧
    ((buildPlaylist [calmSongA] SessionType.calm 2280000).map SongAnalysis.id).Nodup := by
  have h : ([calmSongA].map SongAnalysis.id).Nodup := by simp
  exact ⟨h, buildPlaylist_nodup_id [calmSongA] SessionType.calm 2280000 h⟩

/-- A zero-duration calm track. -/
def zeroDurSong : SongAnalysis :=
  ⟨"zero", "Zero Length", [], 0, 80, 3/10, 0, 0, 0, "spotify:track:zero"⟩

/-- Counterexample to C8: buildPlaylist has no duration positivity check, so a
track with duration_ms = 0 that classifies as the target mood does appear in
the result. -/
theorem buildPlaylist_zero_duration_cex :
    zeroDurSong.duration_ms = 0 ∧
    classifySong zeroDurSong = SessionType.calm ∧
    zeroDurSong ∈ buildPlaylist [zeroDurSong] SessionType.calm 2280000 := by
  refine ⟨rfl, by norm_num [classifySong, zeroDurSong], ?_⟩
  norm_num [buildPlaylist, filterSongs, sortSongs, packLoop, classifySong, zeroDurSong,
    List.filter, List.insertionSort, List.orderedInsert]

/-- C8 amended: the assembler considers tracks regardless of whether
duration_ms is positive; a zero-duration track of the target mood, offered
alone with a non-negative target, is selected into the result. -/
theorem buildPlaylist_zero_duration_selected (x : SongAnalysis)
    (sessionType : SessionType) (targetDurationMs : ℚ)
    (hc : classifySong x = sessionType) (hd : x.duration_ms = 0)
    (ht : 0 ≤ targetDurationMs) :
    buildPlaylist [x] sessionType targetDurationMs = [x] := by
  have h1 : filterSongs sessionType [x] = [x] := by
    simp [filterSongs, hc]
  have h2 : sortSongs sessionType [x] = [x] := by
    simp [sortSongs]
  rw [buildPlaylist, h1, h2]
  rw [packLoop]
  rw [hd, add_zero, if_pos ht]
  rw [packLoop]
  simp

/-- Witness for the amended C8 at a concrete input. -/
theorem buildPlaylist_zero_duration_selected_witness :
    classifySong zeroDurSong = SessionType.calm ∧
    zeroDurSong.duration_ms = 0 ∧
    (0:ℚ) ≤ 2280000 ∧
    buildPlaylist [zeroDurSong] SessionType.calm 2280000 = [zeroDurSong] := by
  have hc : classifySong zeroDurSong = SessionType.calm := by
    norm_num [classifySong, zeroDurSong]
  exact ⟨hc, rfl, by norm_num,
    buildPlaylist_zero_duration_selected zeroDurSong SessionType.calm 2280000 hc rfl
      (by norm_num)⟩

/-- A heap of arrays for the mutation model of buildPlaylist: the ECMAScript
arrays reachable during one call, addressed by allocation order.  Song records
themselves are immutable in the source (no field of a song is ever assigned),
so only arrays live in the heap. -/
abbrev Store : Type := List (List SongAnalysis)

/-- Reads the array at address a. -/
def readArr (st : Store) (a : Nat) : List SongAnalysis := st.getD a []

/-- Overwrites the array at address a, as the in-place `.sort()` does. -/
def writeArr (st : Store) (a : Nat) (v : List SongAnalysis) : Store := st.set a v

/-- Allocates a fresh array holding v and returns its address. -/
def allocArr (st : Store) (v : List SongAnalysis) : Store × Nat :=
  (st ++ [v], st.length)

/-- The mutating `.push(song)` on the array at address a. -/
def pushArr (st : Store) (a : Nat) (song : SongAnalysis) : Store :=
  writeArr st a (readArr st a ++ [song])

lemma length_writeArr (st : Store) (a : Nat) (v : List SongAnalysis) :
    (writeArr st a v).length = st.length := List.length_set st a v

lemma length_pushArr (st : Store) (a : Nat) (song : SongAnalysis) :
    (pushArr st a song).length = st.length := length_writeArr _ _ _

lemma readArr_alloc_lt {st : Store} {b : Nat} (hb : b < st.length)
    (v : List SongAnalysis) : readArr (st ++ [v]) b = readArr st b := by
  induction st generalizing b with
  | nil => exact absurd hb (Nat.not_lt_zero b)
  | cons x st ih =>
    cases b with
    | zero => rfl
    | succ b =>
      simp only [readArr, List.cons_append, List.getD_cons_succ] at *
      exact ih (Nat.lt_of_succ_lt_succ hb)

lemma readArr_alloc_self (st : Store) (v : List SongAnalysis) :
    readArr (st ++ [v]) st.length = v := by
  induction st with
  | nil => rfl
  | cons x st ih =>
    simpa only [readArr, List.cons_append, List.length_cons, List.getD_cons_succ] using ih

lemma readArr_write_self {st : Store} {a : Nat} (ha : a < st.length)
    (v : List SongAnalysis) : readArr (writeArr st a v) a = v := by
  induction st generalizing a with
  | nil => exact absurd ha (Nat.not_lt_zero a)
  | cons x st ih =>
    cases a with
    | zero => rfl
    | succ a =>
      simp only [readArr, writeArr, List.set_cons_succ, List.getD_cons_succ] at *
      exact ih (Nat.lt_of_succ_lt_succ ha)

lemma readArr_write_ne {st : Store} {a b : Nat} (hb : b ≠ a)
    (v : List SongAnalysis) : readArr (writeArr st a v) b = readArr st b := by
  induction st generalizing a b with
  | nil => rfl
  | cons x st ih =>
    cases a with
    | zero =>
      cases b with
      | zero => exact absurd rfl hb
      | succ b => rfl
    | succ a =>
      cases b with
      | zero => rfl
      | succ b =>
        simp only [readArr, writeArr, List.set_cons_succ, List.getD_cons_succ] at *
        exact ih (fun hc => hb (congrArg Nat.succ hc))

lemma readArr_push_self {st : Store} {a : Nat} (ha : a < st.length)
    (song : SongAnalysis) :
    readArr (pushArr st a song) a = readArr st a ++ [song] :=
  readArr_write_self ha _

lemma readArr_push_ne {st : Store} {a b : Nat} (hb : b ≠ a)
    (song : SongAnalysis) : readArr (pushArr st a song) b = readArr st b :=
  readArr_write_ne hb _

/-- The assembly loop of buildPlaylist under the mutation model: it reads the
sorted array at address sortedA and pushes selected songs onto the playlist
array at address playlistA; no other location is touched. -/
def packLoopH (targetDurationMs : ℚ) (sortedA playlistA : Nat) :
    List SongAnalysis → ℚ → Store → Store
  | [], _, st => st
  | song :: rest, currentDuration, st =>
    if currentDuration + song.duration_ms ≤ targetDurationMs then
      packLoopH targetDurationMs sortedA playlistA rest
        (currentDuration + song.duration_ms) (pushArr st playlistA song)
    else
      match (readArr st sortedA).find? (fun s =>
          decide (s.duration_ms ≤ targetDurationMs - currentDuration) &&
          !(decide (s ∈ readArr st playlistA))) with
      | some perfectFit => pushArr st playlistA perfectFit
      | none => st

/-- buildPlaylist under the mutation model: `filter` allocates a fresh array,
the spread `[...filteredSongs]` allocates a copy, `.sort()` overwrites that
copy in place, `const playlist = []` allocates the result array, and the loop
pushes onto it.  Returns the final heap and the address of the result. -/
def buildPlaylistH (st : Store) (songsA : Nat) (sessionType : SessionType)
    (targetDurationMs : ℚ) : Store × Nat :=
  let filtered := filterSongs sessionType (readArr st songsA)
  let st1 := (allocArr st filtered).1
  let fA := (allocArr st filtered).2
  let st2 := (allocArr st1 (readArr st1 fA)).1
  let sA := (allocArr st1 (readArr st1 fA)).2
  let st3 := writeArr st2 sA (sortSongs sessionType (readArr st2 sA))
  let st4 := (allocArr st3 []).1
  let pA := (allocArr st3 []).2
  (packLoopH targetDurationMs sA pA (readArr st4 sA) 0 st4, pA)

lemma packLoopH_frame (targetDurationMs : ℚ) (sortedA playlistA : Nat) :
    ∀ (rest : List SongAnalysis) (cur : ℚ) (st : Store) (b : Nat), b ≠ playlistA →
      readArr (packLoopH targetDurationMs sortedA playlistA rest cur st) b =
        readArr st b := by
  intro rest
  induction rest with
  | nil => intro cur st b hb; rfl
  | cons song rest ih =>
    intro cur st b hb
    rw [packLoopH]
    by_cases h : cur + song.duration_ms ≤ targetDurationMs
    · rw [if_pos h, ih _ _ _ hb, readArr_push_ne hb]
    · rw [if_neg h]
      cases hf : (readArr st sortedA).find? (fun s =>
          decide (s.duration_ms ≤ targetDurationMs - cur) &&
          !(decide (s ∈ readArr st playlistA))) with
      | some pf => exact readArr_push_ne hb pf
      | none => rfl

lemma packLoopH_result (targetDurationMs : ℚ) (sortedA playlistA : Nat)
    (hne : sortedA ≠ playlistA) :
    ∀ (rest : List SongAnalysis) (cur : ℚ) (st : Store), playlistA < st.length →
      readArr (packLoopH targetDurationMs sortedA playlistA rest cur st) playlistA =
        packLoop targetDurationMs (readArr st sortedA) rest (readArr st playlistA) cur := by
  intro rest
  induction rest with
  | nil => intro cur st hp; rfl
  | cons song rest ih =>
    intro cur st hp
    rw [packLoopH, packLoop]
    by_cases h : cur + song.duration_ms ≤ targetDurationMs
    · rw [if_pos h, if_pos h]
      rw [ih _ _ (by rw [length_pushArr]; exact hp)]
      rw [readArr_push_ne hne, readArr_push_self hp]
    · rw [if_neg h, if_neg h]
      cases hf : (readArr st sortedA).find? (fun s =>
          decide (s.duration_ms ≤ targetDurationMs - cur) &&
          !(decide (s ∈ readArr st playlistA))) with
      | some pf => exact readArr_push_self hp pf
      | none => rfl

/-- C9: buildPlaylist does not modify its input: under the mutation model, the
call leaves the input songs array (and every array that existed before the
call) unchanged, writing only to the arrays it allocates itself, and the
array it returns holds exactly the value of the pure buildPlaylist function
applied to the input array. -/
theorem buildPlaylist_no_mutation (st : Store) (songsA : Nat)
    (sessionType : SessionType) (targetDurationMs : ℚ) (hA : songsA < st.length) :
    readArr (buildPlaylistH st songsA sessionType targetDurationMs).1 songsA =
      readArr st songsA ∧
    (∀ b, b < st.length →
      readArr (buildPlaylistH st songsA sessionType targetDurationMs).1 b =
        readArr st b) ∧
    readArr (buildPlaylistH st songsA sessionType targetDurationMs).1
        (buildPlaylistH st songsA sessionType targetDurationMs).2 =
      buildPlaylist (readArr st songsA) sessionType targetDurationMs := by
  unfold buildPlaylistH
  simp only [allocArr]
  set F := filterSongs sessionType (readArr st songsA) with hFdef
  rw [readArr_alloc_self]
  have hl1 : (st ++ [F]).length = st.length + 1 := by simp
  rw [hl1]
  have h2 : readArr ((st ++ [F]) ++ [F]) (st.length + 1) = F := by
    have h := readArr_alloc_self (st ++ [F]) F
    rwa [hl1] at h
  rw [h2]
  have hl3 : (writeArr ((st ++ [F]) ++ [F]) (st.length + 1)
      (sortSongs sessionType F)).length = st.length + 2 := by
    rw [length_writeArr]
    simp
  rw [hl3]
  have h4 : readArr (writeArr ((st ++ [F]) ++ [F]) (st.length + 1)
      (sortSongs sessionType F) ++ [[]]) (st.length + 1) = sortSongs sessionType F := by
    rw [readArr_alloc_lt (by rw [hl3]; omega)]
    exact readArr_write_self (by simp) _
  rw [h4]
  have hframe : ∀ b, b < st.length →
      readArr (packLoopH targetDurationMs (st.length + 1) (st.length + 2)
        (sortSongs sessionType F) 0
        (writeArr ((st ++ [F]) ++ [F]) (st.length + 1)
          (sortSongs sessionType F) ++ [[]])) b = readArr st b := by
    intro b hb
    rw [packLoopH_frame _ _ _ _ _ _ b (by omega)]
    rw [readArr_alloc_lt (by rw [hl3]; omega)]
    rw [readArr_write_ne (by omega)]
    rw [readArr_alloc_lt (by simp; omega)]
    exact readArr_alloc_lt hb F
  refine ⟨hframe songsA hA, hframe, ?_⟩
  rw [packLoopH_result targetDurationMs (st.length + 1) (st.length + 2)
    (by omega) _ _ _ (by rw [List.length_append, hl3]; simp)]
  rw [h4]
  have h5 : readArr (writeArr ((st ++ [F]) ++ [F]) (st.length + 1)
      (sortSongs sessionType F) ++ [[]]) (st.length + 2) = [] := by
    rw [← hl3]
    exact readArr_alloc_self _ []
  rw [h5]
  rfl

/-- Witness for C9 at a concrete heap. -/
theorem buildPlaylist_no_mutation_witness :
    0 < ([[calmSongA]] : Store).length ∧
    (readArr (buildPlaylistH [[calmSongA]] 0 SessionType.calm 2280000).1 0 =
        readArr [[calmSongA]] 0 ∧
      (∀ b, b < ([[calmSongA]] : Store).length →
        readArr (buildPlaylistH [[calmSongA]] 0 SessionType.calm 2280000).1 b =
          readArr [[calmSongA]] b) ∧
      readArr (buildPlaylistH [[calmSongA]] 0 SessionType.calm 2280000).1
          (buildPlaylistH [[calmSongA]] 0 SessionType.calm 2280000).2 =
        buildPlaylist (readArr [[calmSongA]] 0) SessionType.calm 2280000) :=
  ⟨by norm_num,
    buildPlaylist_no_mutation [[calmSongA]] 0 SessionType.calm 2280000 (by norm_num)⟩
